import Mathlib

/-!
Shallow embedding of the aggregation logic of `pages/api/league-data.js`
(the Sleeper-API proxy endpoint): the standings aggregation
(`fetchStandings`), the champion-history chain walk (`fetchLeagueHistory`)
and the request handler (`handler`), together with theorems settling the
frozen claims about them.

Modelling conventions:
* JavaScript numbers taken from roster `settings` fields (`wins`, `losses`,
  `ties`, `fpts`, `fpts_decimal`) are non-negative integers upstream and are
  modelled as `Nat`; computed point totals are modelled as `ℚ`.
* `league.season` is a numeric season string upstream and is modelled as
  `Nat` (the source sorts history with the numeric comparator
  `b.season - a.season`).
* Possibly-`null`/absent JSON fields are modelled as `Option`.
* `Array.prototype.sort` with a consistent comparator is stable
  (ECMAScript 2019); it is modelled by `List.insertionSort`, which inserts
  each element before the first element it is not strictly after, hence is
  stable for the total preorders used here.
* The recursive chain walk receives explicit fuel; `none` models the
  (unreached, for acyclic chains) case of running out of fuel.  The walk
  also returns the number of upstream `fetch` invocations it performed and
  the kind of exit it took.
-/

namespace LeagueData

/-- Whether a character is a decimal digit. -/
def isDigitChar (c : Char) : Bool := '0' ≤ c && c ≤ '9'

/-- Accumulator loop reading a run of decimal digits as a natural number;
any non-digit character makes the run invalid. -/
def digitsToNatAux : List Char → Nat → Option Nat
  | [], acc => some acc
  | c :: cs, acc =>
      if isDigitChar c then digitsToNatAux cs (acc * 10 + (c.toNat - Char.toNat '0')) else none

/-- The value of a non-empty run of decimal digits. -/
def digitsToNat? (cs : List Char) : Option Nat :=
  if cs.isEmpty then none else digitsToNatAux cs 0

/-- Split a character list at every `'.'`. -/
def splitDotAux : List Char → List Char → List (List Char)
  | [], acc => [acc.reverse]
  | c :: cs, acc =>
      if c == '.' then acc.reverse :: splitDotAux cs [] else splitDotAux cs (c :: acc)

/-- The value JavaScript `parseFloat` returns on the strings built by the
standings aggregation (digit run, `.`, digit run): the integer part plus the
fractional run `f` read as `f / 10 ^ f.length`.  Everything after a second
`.` is ignored, as `parseFloat` does on such inputs. -/
def parseFloatDec (s : String) : ℚ :=
  match splitDotAux s.data [] with
  | [] => 0
  | [intPart] => ((digitsToNat? intPart).getD 0 : ℚ)
  | intPart :: fracPart :: _ =>
      ((digitsToNat? intPart).getD 0 : ℚ) +
        ((digitsToNat? fracPart).getD 0 : ℚ) / (10 : ℚ) ^ fracPart.length

/-- The computation `parseFloat` of the join of fpts and fpts_decimal from `fetchStandings` /
`fetchLeagueHistory`: the two integers are joined textually with a dot and
the result is parsed as a decimal number. -/
def totalPoints (fpts fptsDec : Nat) : ℚ :=
  parseFloatDec (toString fpts ++ "." ++ toString fptsDec)

/-- A Sleeper user record (the fields the aggregation reads). -/
structure UserRecord where
  user_id : String
  display_name : Option String
  username : String
deriving DecidableEq, Repr

/-- The `settings` object of a roster; every field may be absent. -/
structure RosterSettings where
  wins : Option Nat
  losses : Option Nat
  ties : Option Nat
  fpts : Option Nat
  fpts_decimal : Option Nat
deriving DecidableEq, Repr

/-- A Sleeper roster record; `settings` itself may be absent
(the source reads it with optional chaining `roster.settings?.wins ?? 0`). -/
structure RosterRecord where
  roster_id : Nat
  owner_id : String
  settings : Option RosterSettings
deriving DecidableEq, Repr

/-- Reads `roster.settings?.wins ?? 0`. -/
def rosterWins (r : RosterRecord) : Nat := (r.settings.bind RosterSettings.wins).getD 0

/-- Reads `roster.settings?.losses ?? 0`. -/
def rosterLosses (r : RosterRecord) : Nat := (r.settings.bind RosterSettings.losses).getD 0

/-- Reads `roster.settings?.ties ?? 0`. -/
def rosterTies (r : RosterRecord) : Nat := (r.settings.bind RosterSettings.ties).getD 0

/-- Reads `roster.settings?.fpts ?? 0`. -/
def rosterFpts (r : RosterRecord) : Nat := (r.settings.bind RosterSettings.fpts).getD 0

/-- Reads `roster.settings?.fpts_decimal ?? 0`. -/
def rosterFptsDec (r : RosterRecord) : Nat := (r.settings.bind RosterSettings.fpts_decimal).getD 0

/-- JavaScript truthiness of an `Option String`: `null`/`undefined` and the
empty string are falsy. -/
def idFalsy : Option String → Bool
  | none => true
  | some s => s.isEmpty

/-- Computes `user.display_name || user.username`: the display name when truthy
(non-null, non-empty), otherwise the username. -/
def displayLabel (u : UserRecord) : String :=
  match u.display_name with
  | some d => if d.isEmpty then u.username else d
  | none => u.username

/-- Looks up `new Map(users.map(user => [user.user_id, user.display_name || user.username])).get(id)`:
a JavaScript `Map` built from an entry list keeps the last entry for a
duplicated key, so the lookup finds the last matching user. -/
def userMapGet (users : List UserRecord) (id : String) : Option String :=
  (users.reverse.find? (fun u => u.user_id == id)).map displayLabel

/-- Computes `userMap.get(owner_id) || 'Unknown Owner'`: a missing key and a falsy
(empty) stored label both fall back to `"Unknown Owner"`. -/
def ownerLabel (users : List UserRecord) (id : String) : String :=
  match userMapGet users id with
  | some v => if v.isEmpty then "Unknown Owner" else v
  | none => "Unknown Owner"

/-- A Sleeper league record (the fields the aggregation reads). -/
structure LeagueRecord where
  league_id : String
  name : String
  season : Nat
  total_rosters : Nat
  previous_league_id : Option String
deriving DecidableEq, Repr

/-- One entry of the computed standings table. -/
structure StandingsEntry where
  roster_id : Nat
  owner : String
  wins : Nat
  losses : Nat
  ties : Nat
  total_points : ℚ
deriving DecidableEq, Repr

/-- The sort key of a standings entry, lexicographically:
wins first, then total points. -/
def entryKey (e : StandingsEntry) : Lex (Nat × ℚ) := toLex (e.wins, e.total_points)

/-- The standings comparator of the source,
`(a, b) => b.wins !== a.wins ? b.wins - a.wins : b.total_points - a.total_points`,
read as "the comparator is ≤ 0", i.e. `a` may be placed before `b`. -/
def standingsBefore (a b : StandingsEntry) : Prop :=
  b.wins < a.wins ∨ (b.wins = a.wins ∧ b.total_points ≤ a.total_points)

instance : DecidableRel standingsBefore := fun a b =>
  inferInstanceAs (Decidable (_ ∨ _))

theorem standingsBefore_iff (a b : StandingsEntry) :
    standingsBefore a b ↔ entryKey b ≤ entryKey a := by
  rw [entryKey, entryKey, Prod.Lex.le_iff]
  exact Iff.rfl

instance : IsTotal StandingsEntry standingsBefore :=
  ⟨fun a b => by
    rw [standingsBefore_iff, standingsBefore_iff]
    exact (le_total (entryKey b) (entryKey a))⟩

instance : IsTrans StandingsEntry standingsBefore :=
  ⟨fun a b c hab hbc => by
    rw [standingsBefore_iff] at hab hbc ⊢
    exact le_trans hbc hab⟩

/-- The standings entry built for one roster inside `fetchStandings`. -/
def mkStandingsEntry (users : List UserRecord) (roster : RosterRecord) : StandingsEntry :=
  { roster_id := roster.roster_id
    owner := ownerLabel users roster.owner_id
    wins := rosterWins roster
    losses := rosterLosses roster
    ties := rosterTies roster
    total_points := totalPoints (rosterFpts roster) (rosterFptsDec roster) }

/-- The object `fetchStandings` resolves to:
`{ season, standings, league_name }` (`season` is the request query
parameter, passed through unchanged). -/
structure StandingsResult where
  season : String
  standings : List StandingsEntry
  league_name : String
deriving DecidableEq, Repr

/-- The aggregation core of `fetchStandings` once the three fetches have
succeeded: map every roster to its entry, then sort by wins descending with
total points descending as the tie-break (stable sort). -/
def aggregateStandings (seasonParam : String) (league : LeagueRecord)
    (rosters : List RosterRecord) (users : List UserRecord) : StandingsResult :=
  if rosters.isEmpty then
    { season := seasonParam, standings := [], league_name := league.name }
  else
    { season := seasonParam
      standings := List.insertionSort standingsBefore (rosters.map (mkStandingsEntry users))
      league_name := league.name }

/-- The sort key of a roster in the champion scan: wins first, then the
combined point total, lexicographically. -/
def champKey (r : RosterRecord) : Lex (Nat × ℚ) :=
  toLex (rosterWins r, totalPoints (rosterFpts r) (rosterFptsDec r))

/-- One step of the champion scan of `fetchLeagueHistory`: the running state
is `(championRoster, maxWins, maxPoints)`, initially `(null, -1, -1)`, and a
roster replaces it exactly when
`wins > maxWins || (wins === maxWins && totalPoints > maxPoints)`. -/
def champStep (st : Option RosterRecord × Int × ℚ) (roster : RosterRecord) :
    Option RosterRecord × Int × ℚ :=
  let wins := rosterWins roster
  let points := totalPoints (rosterFpts roster) (rosterFptsDec roster)
  if (wins : Int) > st.2.1 ∨ ((wins : Int) = st.2.1 ∧ points > st.2.2) then
    (some roster, (wins : Int), points)
  else st

/-- The roster the single-pass scan of `fetchLeagueHistory` selects. -/
def champRoster (rosters : List RosterRecord) : Option RosterRecord :=
  (rosters.foldl champStep (none, -1, -1)).1

/-- The champion label of one season in `fetchLeagueHistory`: `"Unknown"`
when no rosters exist, otherwise the scanned roster's owner label. -/
def championOwner (rosters : List RosterRecord) (users : List UserRecord) : String :=
  if rosters.isEmpty then "Unknown"
  else
    match champRoster rosters with
    | some r => ownerLabel users r.owner_id
    | none => "Unknown"

/-- One entry of the champion history. -/
structure ChampionHistoryEntry where
  season : Nat
  league_id : String
  name : String
  champion : String
  total_rosters : Nat
deriving DecidableEq, Repr

/-- The history entry pushed for one season by `fetchLeagueHistory`. -/
def mkHistoryEntry (league : LeagueRecord) (rosters : List RosterRecord)
    (users : List UserRecord) : ChampionHistoryEntry :=
  { season := league.season
    league_id := league.league_id
    name := league.name
    champion := championOwner rosters users
    total_rosters := league.total_rosters }

/-- The history comparator of the source, `(a, b) => b.season - a.season`,
read as "the comparator is ≤ 0": season descending. -/
def seasonBefore (a b : ChampionHistoryEntry) : Prop := b.season ≤ a.season

instance : DecidableRel seasonBefore := fun a b =>
  inferInstanceAs (Decidable (_ ≤ _))

instance : IsTotal ChampionHistoryEntry seasonBefore :=
  ⟨fun a b => le_total b.season a.season⟩

instance : IsTrans ChampionHistoryEntry seasonBefore :=
  ⟨fun _ _ _ hab hbc => le_trans hbc hab⟩

/-- Computes `history.sort((a, b) => b.season - a.season)` (stable). -/
def sortHistory (h : List ChampionHistoryEntry) : List ChampionHistoryEntry :=
  List.insertionSort seasonBefore h

/-- Outcome of one upstream `fetch` (plus JSON parse): a parsed value, a
non-ok HTTP response carrying its status and status text, or a rejected
promise carrying the thrown message. -/
inductive FetchOutcome (α : Type) where
  | ok (val : α)
  | httpErr (status : Nat) (statusText : String)
  | threw (msg : String)
deriving DecidableEq, Repr

/-- The three per-league fetch outcomes (league, rosters, users) the
upstream provider would give for one league id: the injected fetch
capability of the walk and of the standings aggregation. -/
structure SeasonFetch where
  league : FetchOutcome LeagueRecord
  rosters : FetchOutcome (List RosterRecord)
  users : FetchOutcome (List UserRecord)
deriving Repr

/-- How one invocation of `fetchLeagueHistory` came to return. -/
inductive ExitKind where
  /-- The base case: the current id was `null`, empty or the literal `"0"`. -/
  | sentinel
  /-- The field `league.previous_league_id` was falsy, so the chain is exhausted. -/
  | exhausted
  /-- The league fetch returned status 404: stop and return the accumulator. -/
  | notFound
  /-- Some fetch threw or returned another non-ok status: the `catch` path. -/
  | errored
deriving DecidableEq, Repr

/-- The recursive champion-history walk.  `fuel` bounds the recursion depth
(the JavaScript source has no such bound and would loop on a cyclic chain;
`none` models that unreached case).  The result carries the returned
history, the number of `fetch` invocations performed, and the exit kind.
The accumulator `history` is threaded through exactly as the source pushes
into (and sorts) the array it was passed; the returned list is the final
contents of that same array object. -/
def fetchLeagueHistory (fuel : Nat) (currentLeagueId : Option String)
    (net : String → SeasonFetch) (history : List ChampionHistoryEntry) :
    Option (List ChampionHistoryEntry × Nat × ExitKind) :=
  match fuel with
  | 0 => none
  | fuel + 1 =>
    if idFalsy currentLeagueId || currentLeagueId == some "0" then
      some (history, 0, ExitKind.sentinel)
    else
      match (net (currentLeagueId.getD "")).league with
      | FetchOutcome.httpErr status _ =>
          if status == 404 then some (history, 1, ExitKind.notFound)
          else some (sortHistory history, 1, ExitKind.errored)
      | FetchOutcome.threw _ => some (sortHistory history, 1, ExitKind.errored)
      | FetchOutcome.ok league =>
        match (net (currentLeagueId.getD "")).rosters with
        | FetchOutcome.ok rosters =>
          match (net (currentLeagueId.getD "")).users with
          | FetchOutcome.ok users =>
            let history' := history ++ [mkHistoryEntry league rosters users]
            if idFalsy league.previous_league_id then
              some (sortHistory history', 3, ExitKind.exhausted)
            else
              match fetchLeagueHistory fuel league.previous_league_id net history' with
              | some (out, n, k) => some (out, n + 3, k)
              | none => none
          | _ => some (sortHistory history, 3, ExitKind.errored)
        | _ => some (sortHistory history, 2, ExitKind.errored)

/-- The body of `fetchStandings` once the three jointly-issued fetches have settled: a
rejected fetch fails the batch with its message; otherwise each response's
`ok` flag is checked in source order and a non-ok response throws; on
success the aggregation runs. -/
def fetchStandings (seasonParam : String) (fetched : SeasonFetch) :
    Except String StandingsResult :=
  match fetched.league, fetched.rosters, fetched.users with
  | FetchOutcome.threw m, _, _ => Except.error m
  | _, FetchOutcome.threw m, _ => Except.error m
  | _, _, FetchOutcome.threw m => Except.error m
  | FetchOutcome.httpErr st stx, _, _ =>
      Except.error ("Sleeper API error (league) for standings: " ++ stx ++ " (Status: " ++ toString st ++ ")")
  | _, FetchOutcome.httpErr st stx, _ =>
      Except.error ("Sleeper API error (rosters) for standings: " ++ stx ++ " (Status: " ++ toString st ++ ")")
  | _, _, FetchOutcome.httpErr st stx =>
      Except.error ("Sleeper API error (users) for standings: " ++ stx ++ " (Status: " ++ toString st ++ ")")
  | FetchOutcome.ok league, FetchOutcome.ok rosters, FetchOutcome.ok users =>
      Except.ok (aggregateStandings seasonParam league rosters users)

/-- The query parameters of a request to the proxy endpoint; a missing
parameter is `none`. -/
structure ApiRequest where
  leagueId : Option String
  dataType : Option String
  week : Option String
  season : Option String
deriving DecidableEq, Repr

/-- The JSON payload of a successful response: raw upstream data passed
through, an aggregated standings object, or the champion history. -/
inductive ApiPayload (α : Type) where
  | raw (data : α)
  | standingsData (result : StandingsResult)
  | championsData (entries : List ChampionHistoryEntry)
deriving DecidableEq, Repr

/-- The JSON body the handler sends. -/
inductive ApiBody (α : Type) where
  | jsonError (msg : String)
  | jsonData (payload : ApiPayload α)
deriving DecidableEq, Repr

/-- An HTTP response of the handler. -/
structure ApiResponse (α : Type) where
  status : Nat
  body : ApiBody α
deriving DecidableEq, Repr

/-- The upstream network, as the handler sees it: raw pass-through fetches
keyed by URL, and the per-league triple used by the standings and
champions aggregations. -/
structure NetworkModel (α : Type) where
  raw : String → FetchOutcome α
  byLeague : String → SeasonFetch

/-- The fixed upstream base URL of the source. -/
def SLEEPER_API_BASE_URL : String := "https://api.sleeper.app/v1"

/-- Response for a raw pass-through fetch: 200 with the data, or 500 with
`Failed to fetch data: <message>` where a non-ok response's message is
`Sleeper API error: <statusText> (Status: <status>)`.  One fetch call. -/
def rawFetchResponse {α : Type} (r : FetchOutcome α) : ApiResponse α × Nat :=
  match r with
  | FetchOutcome.ok d => (⟨200, ApiBody.jsonData (ApiPayload.raw d)⟩, 1)
  | FetchOutcome.httpErr st stx =>
      (⟨500, ApiBody.jsonError
        ("Failed to fetch data: Sleeper API error: " ++ stx ++ " (Status: " ++ toString st ++ ")")⟩, 1)
  | FetchOutcome.threw m => (⟨500, ApiBody.jsonError ("Failed to fetch data: " ++ m)⟩, 1)

/-- The proxy request handler.  Returns the response together with the
number of upstream fetch invocations it performed; `none` models only the
fuel-exhausted champion walk. -/
def handler {α : Type} (fuel : Nat) (req : ApiRequest) (net : NetworkModel α) :
    Option (ApiResponse α × Nat) :=
  if idFalsy req.leagueId then
    some (⟨400, ApiBody.jsonError "League ID is required."⟩, 0)
  else
    let leagueId := req.leagueId.getD ""
    match req.dataType with
    | some "league" =>
        some (rawFetchResponse (net.raw (SLEEPER_API_BASE_URL ++ "/league/" ++ leagueId)))
    | some "users" =>
        some (rawFetchResponse (net.raw (SLEEPER_API_BASE_URL ++ "/league/" ++ leagueId ++ "/users")))
    | some "rosters" =>
        some (rawFetchResponse (net.raw (SLEEPER_API_BASE_URL ++ "/league/" ++ leagueId ++ "/rosters")))
    | some "matchups" =>
        if idFalsy req.week || idFalsy req.season then
          some (⟨400, ApiBody.jsonError "Week and season are required for matchups."⟩, 0)
        else
          some (rawFetchResponse
            (net.raw (SLEEPER_API_BASE_URL ++ "/league/" ++ leagueId ++ "/matchups/" ++ req.week.getD "")))
    | some "drafts" =>
        some (rawFetchResponse (net.raw (SLEEPER_API_BASE_URL ++ "/league/" ++ leagueId ++ "/drafts")))
    | some "standings" =>
        if idFalsy req.season then
          some (⟨400, ApiBody.jsonError "Season is required for standings."⟩, 0)
        else
          match fetchStandings (req.season.getD "") (net.byLeague leagueId) with
          | Except.ok result => some (⟨200, ApiBody.jsonData (ApiPayload.standingsData result)⟩, 3)
          | Except.error m => some (⟨500, ApiBody.jsonError ("Failed to fetch data: " ++ m)⟩, 3)
    | some "champions" =>
        match fetchLeagueHistory fuel (some leagueId) net.byLeague [] with
        | some (entries, n, _) => some (⟨200, ApiBody.jsonData (ApiPayload.championsData entries)⟩, n)
        | none => none
    | _ => some (⟨400, ApiBody.jsonError "Invalid data type requested."⟩, 0)

/-- The owner-label rule as the claim words it: the owner's `display_name`
when truthy, otherwise the owner's `username` when truthy, otherwise
`"Unknown Owner"` (also for an owner absent from the users list).  To be
compared with `ownerLabel`, the rule the code implements. -/
def ownerLabelSpec (users : List UserRecord) (id : String) : String :=
  match users.reverse.find? (fun u => u.user_id == id) with
  | none => "Unknown Owner"
  | some u =>
    match u.display_name with
    | some d => if d.isEmpty then (if u.username.isEmpty then "Unknown Owner" else u.username) else d
    | none => if u.username.isEmpty then "Unknown Owner" else u.username

/-- Right-fold form of a first-encountered maximum scan over key `k`:
`altMax k a l` is the first element of `a :: l` whose key is maximal.
Used to relate the single-pass champion scan to the head of the stable
sort. -/
def altMax {β : Type} (k : β → Lex (Nat × ℚ)) (a : β) : List β → β
  | [] => a
  | x :: l => if k a < k (altMax k x l) then altMax k x l else a

/-- Fixture oracle: a two-hop chain `"A"` (season 1) whose previous league
`"B"` (season 2) has the sentinel `"0"` as its `previous_league_id`; any
other id fails. -/
def netChainToSentinel : String → SeasonFetch := fun id =>
  if id = "A" then
    ⟨FetchOutcome.ok ⟨"A", "League", 1, 10, some "B"⟩, FetchOutcome.ok [], FetchOutcome.ok []⟩
  else if id = "B" then
    ⟨FetchOutcome.ok ⟨"B", "League", 2, 10, some "0"⟩, FetchOutcome.ok [], FetchOutcome.ok []⟩
  else
    ⟨FetchOutcome.httpErr 500 "Server Error", FetchOutcome.httpErr 500 "Server Error",
      FetchOutcome.httpErr 500 "Server Error"⟩

/-- Fixture oracle: every id resolves to a single season-5 league with no
previous league and no rosters. -/
def netSingleSeason : String → SeasonFetch := fun _ =>
  ⟨FetchOutcome.ok ⟨"X", "League", 5, 10, none⟩, FetchOutcome.ok [], FetchOutcome.ok []⟩

/-- Fixture oracle: a three-hop chain `"L1"` → `"L2"` → `"L3"` whose second
hop's league fetch returns status 404. -/
def netNotFoundHop2 : String → SeasonFetch := fun id =>
  if id = "L1" then
    ⟨FetchOutcome.ok ⟨"L1", "League", 3, 10, some "L2"⟩, FetchOutcome.ok [], FetchOutcome.ok []⟩
  else if id = "L2" then
    ⟨FetchOutcome.httpErr 404 "Not Found", FetchOutcome.ok [], FetchOutcome.ok []⟩
  else
    ⟨FetchOutcome.ok ⟨"L3", "League", 1, 10, none⟩, FetchOutcome.ok [], FetchOutcome.ok []⟩

/-! ### Lemmas about the decimal parse -/

theorem parseFloatDec_two (s : String) (i f : List Char) (rest : List (List Char))
    (h : splitDotAux s.data [] = i :: f :: rest) (vi vf n : Nat)
    (hvi : (digitsToNat? i).getD 0 = vi) (hvf : (digitsToNat? f).getD 0 = vf)
    (hn : f.length = n) :
    parseFloatDec s = (vi : ℚ) + (vf : ℚ) / (10 : ℚ) ^ n := by
  unfold parseFloatDec
  rw [h]
  dsimp only
  rw [hvi, hvf, hn]

theorem parseFloatDec_nonneg (s : String) : 0 ≤ parseFloatDec s := by
  unfold parseFloatDec
  split
  · exact le_rfl
  · positivity
  · positivity

theorem totalPoints_nonneg (fpts fptsDec : Nat) : 0 ≤ totalPoints fpts fptsDec :=
  parseFloatDec_nonneg _

theorem ownerLabel_eq_spec (users : List UserRecord) (id : String) :
    ownerLabel users id = ownerLabelSpec users id := by
  unfold ownerLabel ownerLabelSpec userMapGet displayLabel
  cases hfind : users.reverse.find? (fun u => u.user_id == id) with
  | none => rfl
  | some u =>
    cases hd : u.display_name with
    | none =>
      by_cases hu : u.username.isEmpty <;> simp [hd, hu]
    | some d =>
      by_cases hde : d.isEmpty
      · by_cases hu : u.username.isEmpty <;> simp [hd, hde, hu]
      · simp [hd, hde]

/-! ### Claim C1 -/

/-- C1: the standings aggregation computes `total_points` by textually
joining `fpts` (default 0) and `fpts_decimal` (default 0) as
`"{fpts}.{fpts_decimal}"` and parsing the result as a decimal number; in
particular `fpts=1234, fpts_decimal=56` gives `1234.56`; `fpts=0,
fpts_decimal=0` gives `0`; an absent `fpts_decimal` (default 0) gives
`parseFloat("{fpts}.0")`; and `fpts_decimal=5` gives `1234.5`, not
`1234.05`. -/
theorem c1_total_points_textual_join :
    (∀ (users : List UserRecord) (roster : RosterRecord),
        (mkStandingsEntry users roster).total_points =
          parseFloatDec (toString (rosterFpts roster) ++ "." ++ toString (rosterFptsDec roster)))
    ∧ totalPoints 1234 56 = 1234.56
    ∧ totalPoints 0 0 = 0
    ∧ (∀ fpts : Nat, totalPoints fpts 0 = parseFloatDec (toString fpts ++ ".0"))
    ∧ totalPoints 1234 5 = 1234.5
    ∧ totalPoints 1234 5 ≠ 1234.05 := by
  refine ⟨fun users roster => rfl, ?_, ?_, ?_, ?_, ?_⟩
  · rw [totalPoints, parseFloatDec_two _ ['1', '2', '3', '4'] ['5', '6'] []
      (by decide) 1234 56 2 (by decide) (by decide) (by decide)]
    norm_num
  · rw [totalPoints, parseFloatDec_two _ ['0'] ['0'] []
      (by decide) 0 0 1 (by decide) (by decide) (by decide)]
    norm_num
  · intro fpts
    have h : (toString fpts ++ "." ++ toString (0 : Nat)).data = (toString fpts ++ ".0").data := by
      have h0 : (toString (0 : Nat)) = "0" := by decide
      rw [h0]
      simp [String.data_append]
    unfold totalPoints parseFloatDec
    rw [h]
  · rw [totalPoints, parseFloatDec_two _ ['1', '2', '3', '4'] ['5'] []
      (by decide) 1234 5 1 (by decide) (by decide) (by decide)]
    norm_num
  · rw [totalPoints, parseFloatDec_two _ ['1', '2', '3', '4'] ['5'] []
      (by decide) 1234 5 1 (by decide) (by decide) (by decide)]
    norm_num

/-! ### Lemmas about the standings sort -/

theorem entryKey_eq_iff (e : StandingsEntry) (w : Nat) (t : ℚ) :
    entryKey e = toLex (w, t) ↔ e.wins = w ∧ e.total_points = t := by
  unfold entryKey
  rw [toLex.injective.eq_iff, Prod.mk.injEq]

theorem entryKey_lt_of_not_before (a b : StandingsEntry) (h : ¬ standingsBefore a b) :
    entryKey a < entryKey b :=
  not_le.mp (fun hc => h ((standingsBefore_iff a b).mpr hc))

theorem key_pred_false {p : StandingsEntry → Bool} {k : Lex (Nat × ℚ)}
    (hp : ∀ e, p e = true ↔ entryKey e = k) {a : StandingsEntry}
    (hak : entryKey a ≠ k) : p a = false := by
  cases hpae : p a
  · rfl
  · exact absurd ((hp a).mp hpae) hak

theorem filter_orderedInsert_key (p : StandingsEntry → Bool) (k : Lex (Nat × ℚ))
    (hp : ∀ e, p e = true ↔ entryKey e = k) (a : StandingsEntry)
    (l : List StandingsEntry) :
    (List.orderedInsert standingsBefore a l).filter p =
      if entryKey a = k then a :: l.filter p else l.filter p := by
  induction l with
  | nil =>
    by_cases hak : entryKey a = k
    · simp [List.orderedInsert, List.filter, (hp a).mpr hak, hak]
    · simp [List.orderedInsert, List.filter, key_pred_false hp hak, hak]
  | cons b t ih =>
    by_cases hab : standingsBefore a b
    · rw [List.orderedInsert, if_pos hab]
      by_cases hak : entryKey a = k
      · simp [List.filter_cons, (hp a).mpr hak, hak]
      · simp [List.filter_cons, key_pred_false hp hak, hak]
    · rw [List.orderedInsert, if_neg hab, List.filter_cons, ih]
      have haltb : entryKey a < entryKey b := entryKey_lt_of_not_before a b hab
      by_cases hak : entryKey a = k
      · have hbk : entryKey b ≠ k := by
          intro hbk
          rw [hbk, ← hak] at haltb
          exact absurd haltb (lt_irrefl _)
        simp [hak, key_pred_false hp hbk, List.filter_cons]
      · simp [hak, List.filter_cons]

theorem filter_insertionSort_key (p : StandingsEntry → Bool) (k : Lex (Nat × ℚ))
    (hp : ∀ e, p e = true ↔ entryKey e = k) (l : List StandingsEntry) :
    (List.insertionSort standingsBefore l).filter p = l.filter p := by
  induction l with
  | nil => rfl
  | cons a t ih =>
    rw [List.insertionSort, filter_orderedInsert_key p k hp a _, ih, List.filter_cons]
    by_cases hak : entryKey a = k
    · simp [(hp a).mpr hak, hak]
    · simp [key_pred_false hp hak, hak]

/-! ### Claim C5 -/

/-- C5: the standings list is ordered with wins non-increasing and, among
equal wins, total points non-increasing (any entry is related to every
later entry by "more wins, or equal wins and at least the points"); it is
a permutation of the per-roster entries; and entries with exactly the same
sort key keep their encounter order (the filter on any fixed key is
unchanged by the sort, i.e. the sort is stable). -/
theorem c5_standings_sorted_order :
    ∀ (seasonParam : String) (league : LeagueRecord) (rosters : List RosterRecord)
      (users : List UserRecord),
      ((aggregateStandings seasonParam league rosters users).standings.Pairwise
        (fun a b => b.wins < a.wins ∨ (a.wins = b.wins ∧ b.total_points ≤ a.total_points)))
      ∧ ((aggregateStandings seasonParam league rosters users).standings.Perm
          (rosters.map (mkStandingsEntry users)))
      ∧ ∀ (w : Nat) (t : ℚ),
          (aggregateStandings seasonParam league rosters users).standings.filter
              (fun e => decide (e.wins = w ∧ e.total_points = t)) =
            (rosters.map (mkStandingsEntry users)).filter
              (fun e => decide (e.wins = w ∧ e.total_points = t)) := by
  intro seasonParam league rosters users
  unfold aggregateStandings
  by_cases hr : rosters.isEmpty
  · have hnil : rosters = [] := by
      cases rosters
      · rfl
      · exact absurd hr (by simp)
    subst hnil
    simp
  · rw [if_neg hr]
    refine ⟨?_, ?_, ?_⟩
    · have hs := List.sorted_insertionSort standingsBefore (rosters.map (mkStandingsEntry users))
      exact hs.imp (fun {a b} hab => hab.imp_right (fun hand => ⟨hand.1.symm, hand.2⟩))
    · exact List.perm_insertionSort _ _
    · intro w t
      exact filter_insertionSort_key _ (toLex (w, t))
        (fun e => by rw [decide_eq_true_eq, entryKey_eq_iff]) _

/-! ### Claim C4 -/

/-- C4: for every roster the `total_points` value the standings aggregation
computes is non-negative, and it is determined by the roster's `fpts` and
`fpts_decimal` fields alone (it equals `totalPoints` of those two
defaulted fields, a function of them). -/
theorem c4_total_points_nonneg_deterministic :
    ∀ (users : List UserRecord) (roster : RosterRecord),
      0 ≤ (mkStandingsEntry users roster).total_points ∧
      (mkStandingsEntry users roster).total_points =
        totalPoints (rosterFpts roster) (rosterFptsDec roster) :=
  fun users roster => ⟨totalPoints_nonneg _ _, rfl⟩

/-! ### Lemmas about the first-encountered maximum scan -/

theorem le_key_altMax {β : Type} (k : β → Lex (Nat × ℚ)) (a : β) (l : List β) :
    k a ≤ k (altMax k a l) := by
  cases l with
  | nil => exact le_rfl
  | cons x t =>
    rw [altMax]
    by_cases h : k a < k (altMax k x t)
    · rw [if_pos h]
      exact le_of_lt h
    · rw [if_neg h]

theorem foldl_max_eq_altMax {β : Type} (k : β → Lex (Nat × ℚ)) (l : List β) :
    ∀ a : β, l.foldl (fun b x => if k b < k x then x else b) a = altMax k a l := by
  induction l with
  | nil => intro a; rfl
  | cons x t ih =>
    intro a
    rw [List.foldl_cons]
    by_cases hax : k a < k x
    · rw [if_pos hax, ih x, altMax,
        if_pos (lt_of_lt_of_le hax (le_key_altMax k x t))]
    · rw [if_neg hax, ih a]
      have hxa : k x ≤ k a := not_lt.mp hax
      cases t with
      | nil =>
        simp only [altMax, if_neg hax]
      | cons y s =>
        simp only [altMax]
        by_cases hxn : k x < k (altMax k y s)
        · rw [if_pos hxn]
        · rw [if_neg hxn,
            if_neg (not_lt.mpr (le_trans (not_lt.mp hxn) hxa)), if_neg hax]

theorem altMax_map {β γ : Type} (kb : β → Lex (Nat × ℚ)) (kg : γ → Lex (Nat × ℚ))
    (f : γ → β) (hk : ∀ x, kb (f x) = kg x) (l : List γ) :
    ∀ a : γ, altMax kb (f a) (l.map f) = f (altMax kg a l) := by
  induction l with
  | nil => intro a; rfl
  | cons x t ih =>
    intro a
    rw [List.map_cons, altMax, ih x, altMax, hk, hk, apply_ite f]

theorem head_insertionSort_altMax (l : List StandingsEntry) :
    ∀ a : StandingsEntry,
      (List.insertionSort standingsBefore (a :: l)).head? = some (altMax entryKey a l) := by
  induction l with
  | nil => intro a; rfl
  | cons x t ih =>
    intro a
    rw [List.insertionSort]
    have hne := ih x
    cases hs : List.insertionSort standingsBefore (x :: t) with
    | nil => rw [hs] at hne; exact absurd hne (by simp)
    | cons m s =>
      rw [hs] at hne
      have hm : m = altMax entryKey x t := by
        simpa using hne
      rw [List.orderedInsert]
      by_cases ham : standingsBefore a m
      · rw [if_pos ham, altMax,
          if_neg (hm ▸ not_lt.mpr ((standingsBefore_iff a m).mp ham))]
        rfl
      · rw [if_neg ham, altMax,
          if_pos (hm ▸ entryKey_lt_of_not_before a m ham), ← hm]
        rfl

/-! ### Lemmas about the champion scan of `fetchLeagueHistory` -/

theorem champStep_triple (b x : RosterRecord) :
    champStep (some b, (rosterWins b : Int), totalPoints (rosterFpts b) (rosterFptsDec b)) x =
      (fun r => (some r, (rosterWins r : Int), totalPoints (rosterFpts r) (rosterFptsDec r)))
        (if champKey b < champKey x then x else b) := by
  unfold champStep
  dsimp only
  have hiff : ((rosterWins x : Int) > (rosterWins b : Int) ∨
      ((rosterWins x : Int) = (rosterWins b : Int) ∧
        totalPoints (rosterFpts x) (rosterFptsDec x) >
          totalPoints (rosterFpts b) (rosterFptsDec b))) ↔ champKey b < champKey x := by
    unfold champKey
    rw [Prod.Lex.lt_iff]
    constructor
    · rintro (h | ⟨heq, hpt⟩)
      · exact Or.inl (by exact_mod_cast h)
      · exact Or.inr ⟨by exact_mod_cast heq.symm, hpt⟩
    · rintro (h | ⟨heq, hpt⟩)
      · exact Or.inl (by exact_mod_cast h)
      · exact Or.inr ⟨by exact_mod_cast heq.symm, hpt⟩
  rw [if_congr hiff rfl rfl, apply_ite
    (fun r => (some r, (rosterWins r : Int), totalPoints (rosterFpts r) (rosterFptsDec r)))]

theorem altMax_cons_of_not_lt {β : Type} (k : β → Lex (Nat × ℚ)) (b x : β)
    (t : List β) (h : ¬ k b < k x) : altMax k b (x :: t) = altMax k b t := by
  rw [← foldl_max_eq_altMax k (x :: t) b, List.foldl_cons, ← foldl_max_eq_altMax k t b]
  simp only [if_neg h]

theorem foldl_champStep_triple (l : List RosterRecord) :
    ∀ b : RosterRecord,
      l.foldl champStep (some b, (rosterWins b : Int), totalPoints (rosterFpts b) (rosterFptsDec b)) =
        (some (altMax champKey b l), (rosterWins (altMax champKey b l) : Int),
          totalPoints (rosterFpts (altMax champKey b l)) (rosterFptsDec (altMax champKey b l))) := by
  induction l with
  | nil => intro b; rfl
  | cons x t ih =>
    intro b
    rw [List.foldl_cons, champStep_triple]
    by_cases h : champKey b < champKey x
    · rw [if_pos h]
      dsimp only
      rw [ih x, altMax, if_pos (lt_of_lt_of_le h (le_key_altMax champKey x t))]
    · rw [if_neg h]
      dsimp only
      rw [ih b, altMax_cons_of_not_lt champKey b x t h]

theorem champRoster_cons (a : RosterRecord) (l : List RosterRecord) :
    champRoster (a :: l) = some (altMax champKey a l) := by
  unfold champRoster
  rw [List.foldl_cons]
  have hfirst : champStep (none, -1, -1) a =
      (some a, (rosterWins a : Int), totalPoints (rosterFpts a) (rosterFptsDec a)) := by
    unfold champStep
    dsimp only
    rw [if_pos (Or.inl (lt_of_lt_of_le (show (-1 : Int) < 0 by norm_num)
      (Int.natCast_nonneg _)))]
  rw [hfirst, foldl_champStep_triple]

/-! ### Claim C3 -/

/-- C3: for a non-empty roster list the roster selected by the single-pass
champion scan of `fetchLeagueHistory` (highest wins, ties broken by highest
total points, first encountered kept on exact ties) is exactly the roster
whose entry appears first in the sorted standings produced by
`aggregateStandings` over the same rosters and users, and the champion
label is that roster's owner label under the same user-id-to-label rule. -/
theorem c3_champion_is_standings_head :
    ∀ (seasonParam : String) (league : LeagueRecord) (rosters : List RosterRecord)
      (users : List UserRecord), rosters ≠ [] →
      ∃ r : RosterRecord,
        champRoster rosters = some r ∧
        (aggregateStandings seasonParam league rosters users).standings.head? =
          some (mkStandingsEntry users r) ∧
        championOwner rosters users = ownerLabel users r.owner_id := by
  intro seasonParam league rosters users hne
  cases rosters with
  | nil => exact absurd rfl hne
  | cons a l =>
    refine ⟨altMax champKey a l, champRoster_cons a l, ?_, ?_⟩
    · unfold aggregateStandings
      rw [if_neg (by simp)]
      dsimp only
      rw [List.map_cons, head_insertionSort_altMax,
        altMax_map entryKey champKey (mkStandingsEntry users) (fun x => rfl) l a]
    · unfold championOwner
      rw [if_neg (by simp), champRoster_cons]

/-! ### Claim C10 -/

/-- C10: the owner label of a standings entry is the owner's `display_name`
when truthy, else the owner's `username` when truthy, else
`"Unknown Owner"`; in particular an owner present in the users list whose
`display_name` and `username` are both falsy gets `"Unknown Owner"`, the
same label as an owner absent from the users list. -/
theorem c10_owner_label_rule :
    (∀ (users : List UserRecord) (roster : RosterRecord),
        (mkStandingsEntry users roster).owner = ownerLabelSpec users roster.owner_id)
    ∧ ownerLabel [⟨"u1", some "", ""⟩] "u1" = "Unknown Owner"
    ∧ ownerLabel [] "u1" = "Unknown Owner" := by
  refine ⟨fun users roster => ownerLabel_eq_spec users roster.owner_id, by decide, by decide⟩

/-! ### Lemmas about the champion-history walk -/

theorem flh_zero (cur : Option String) (net : String → SeasonFetch)
    (h : List ChampionHistoryEntry) : fetchLeagueHistory 0 cur net h = none := rfl

theorem flh_sentinel (fuel : Nat) (cur : Option String) (net : String → SeasonFetch)
    (h : List ChampionHistoryEntry) (hc : (idFalsy cur || cur == some "0") = true) :
    fetchLeagueHistory (fuel + 1) cur net h = some (h, 0, ExitKind.sentinel) := by
  rw [fetchLeagueHistory, if_pos hc]

theorem sortHistory_pairwise (h : List ChampionHistoryEntry) :
    (sortHistory h).Pairwise (fun a b => b.season ≤ a.season) :=
  List.sorted_insertionSort seasonBefore h

theorem flh_notFound (fuel : Nat) (id : String) (net : String → SeasonFetch)
    (h : List ChampionHistoryEntry) (stx : String)
    (hcond : ¬ (idFalsy (some id) || some id == some "0") = true)
    (hlg : (net id).league = FetchOutcome.httpErr 404 stx) :
    fetchLeagueHistory (fuel + 1) (some id) net h = some (h, 1, ExitKind.notFound) := by
  rw [fetchLeagueHistory, if_neg hcond]
  simp only [Option.getD_some, hlg]
  rfl

theorem flh_success (fuel : Nat) (id : String) (net : String → SeasonFetch)
    (h : List ChampionHistoryEntry) (league : LeagueRecord)
    (rosters : List RosterRecord) (users : List UserRecord)
    (hcond : ¬ (idFalsy (some id) || some id == some "0") = true)
    (hlg : (net id).league = FetchOutcome.ok league)
    (hrs : (net id).rosters = FetchOutcome.ok rosters)
    (hus : (net id).users = FetchOutcome.ok users)
    (hprev : idFalsy league.previous_league_id = false) :
    fetchLeagueHistory (fuel + 1) (some id) net h =
      Option.map (fun r => (r.1, r.2.1 + 3, r.2.2))
        (fetchLeagueHistory fuel league.previous_league_id net
          (h ++ [mkHistoryEntry league rosters users])) := by
  rw [fetchLeagueHistory, if_neg hcond]
  simp only [Option.getD_some, hlg, hrs, hus]
  rw [if_neg (by rw [hprev]; exact Bool.false_ne_true)]
  cases hrec : fetchLeagueHistory fuel league.previous_league_id net
      (h ++ [mkHistoryEntry league rosters users]) with
  | none => rfl
  | some trip =>
    obtain ⟨out, n, k⟩ := trip
    rfl

theorem flh_sorted_of_exit :
    ∀ (fuel : Nat) (cur : Option String) (net : String → SeasonFetch)
      (h out : List ChampionHistoryEntry) (n : Nat) (k : ExitKind),
      fetchLeagueHistory fuel cur net h = some (out, n, k) →
      k = ExitKind.exhausted ∨ k = ExitKind.errored →
      out.Pairwise (fun a b => b.season ≤ a.season) := by
  intro fuel
  induction fuel with
  | zero =>
    intro cur net h out n k heq _
    rw [flh_zero] at heq
    exact Option.noConfusion heq
  | succ fuel ih =>
    intro cur net h out n k heq hk
    rw [fetchLeagueHistory] at heq
    by_cases hc : (idFalsy cur || cur == some "0") = true
    · rw [if_pos hc] at heq
      simp only [Option.some.injEq, Prod.mk.injEq] at heq
      obtain ⟨rfl, -, rfl⟩ := heq
      rcases hk with hk | hk <;> exact ExitKind.noConfusion hk
    · rw [if_neg hc] at heq
      cases hlg : (net (cur.getD "")).league with
      | httpErr st stx =>
        simp only [hlg] at heq
        by_cases h4 : (st == 404) = true
        · rw [if_pos h4] at heq
          simp only [Option.some.injEq, Prod.mk.injEq] at heq
          obtain ⟨rfl, -, rfl⟩ := heq
          rcases hk with hk | hk <;> exact ExitKind.noConfusion hk
        · rw [if_neg h4] at heq
          simp only [Option.some.injEq, Prod.mk.injEq] at heq
          obtain ⟨rfl, -, rfl⟩ := heq
          exact sortHistory_pairwise h
      | threw msg =>
        simp only [hlg, Option.some.injEq, Prod.mk.injEq] at heq
        obtain ⟨rfl, -, rfl⟩ := heq
        exact sortHistory_pairwise h
      | ok league =>
        simp only [hlg] at heq
        cases hrs : (net (cur.getD "")).rosters with
        | httpErr st2 stx2 =>
          simp only [hrs, Option.some.injEq, Prod.mk.injEq] at heq
          obtain ⟨rfl, -, rfl⟩ := heq
          exact sortHistory_pairwise h
        | threw msg2 =>
          simp only [hrs, Option.some.injEq, Prod.mk.injEq] at heq
          obtain ⟨rfl, -, rfl⟩ := heq
          exact sortHistory_pairwise h
        | ok rosters =>
          simp only [hrs] at heq
          cases hus : (net (cur.getD "")).users with
          | httpErr st3 stx3 =>
            simp only [hus, Option.some.injEq, Prod.mk.injEq] at heq
            obtain ⟨rfl, -, rfl⟩ := heq
            exact sortHistory_pairwise h
          | threw msg3 =>
            simp only [hus, Option.some.injEq, Prod.mk.injEq] at heq
            obtain ⟨rfl, -, rfl⟩ := heq
            exact sortHistory_pairwise h
          | ok users =>
            simp only [hus] at heq
            by_cases hprev : (idFalsy league.previous_league_id) = true
            · rw [if_pos hprev] at heq
              simp only [Option.some.injEq, Prod.mk.injEq] at heq
              obtain ⟨rfl, -, rfl⟩ := heq
              exact sortHistory_pairwise _
            · rw [if_neg hprev] at heq
              cases hrec : fetchLeagueHistory fuel league.previous_league_id net
                  (h ++ [mkHistoryEntry league rosters users]) with
              | none =>
                simp only [hrec] at heq
                exact Option.noConfusion heq
              | some trip =>
                obtain ⟨out', n', k'⟩ := trip
                simp only [hrec, Option.some.injEq, Prod.mk.injEq] at heq
                obtain ⟨rfl, -, rfl⟩ := heq
                exact ih league.previous_league_id net
                  (h ++ [mkHistoryEntry league rosters users]) out' n' k' hrec hk

theorem flh_perm :
    ∀ (fuel : Nat) (cur : Option String) (net : String → SeasonFetch)
      (h out : List ChampionHistoryEntry) (n : Nat) (k : ExitKind),
      fetchLeagueHistory fuel cur net h = some (out, n, k) →
      ∃ extra, out.Perm (h ++ extra) := by
  intro fuel
  induction fuel with
  | zero =>
    intro cur net h out n k heq
    rw [flh_zero] at heq
    exact Option.noConfusion heq
  | succ fuel ih =>
    intro cur net h out n k heq
    rw [fetchLeagueHistory] at heq
    by_cases hc : (idFalsy cur || cur == some "0") = true
    · rw [if_pos hc] at heq
      simp only [Option.some.injEq, Prod.mk.injEq] at heq
      obtain ⟨rfl, -, -⟩ := heq
      exact ⟨[], by simp⟩
    · rw [if_neg hc] at heq
      cases hlg : (net (cur.getD "")).league with
      | httpErr st stx =>
        simp only [hlg] at heq
        by_cases h4 : (st == 404) = true
        · rw [if_pos h4] at heq
          simp only [Option.some.injEq, Prod.mk.injEq] at heq
          obtain ⟨rfl, -, -⟩ := heq
          exact ⟨[], by simp⟩
        · rw [if_neg h4] at heq
          simp only [Option.some.injEq, Prod.mk.injEq] at heq
          obtain ⟨rfl, -, -⟩ := heq
          exact ⟨[], by simpa using List.perm_insertionSort seasonBefore h⟩
      | threw msg =>
        simp only [hlg, Option.some.injEq, Prod.mk.injEq] at heq
        obtain ⟨rfl, -, -⟩ := heq
        exact ⟨[], by simpa using List.perm_insertionSort seasonBefore h⟩
      | ok league =>
        simp only [hlg] at heq
        cases hrs : (net (cur.getD "")).rosters with
        | httpErr st2 stx2 =>
          simp only [hrs, Option.some.injEq, Prod.mk.injEq] at heq
          obtain ⟨rfl, -, -⟩ := heq
          exact ⟨[], by simpa using List.perm_insertionSort seasonBefore h⟩
        | threw msg2 =>
          simp only [hrs, Option.some.injEq, Prod.mk.injEq] at heq
          obtain ⟨rfl, -, -⟩ := heq
          exact ⟨[], by simpa using List.perm_insertionSort seasonBefore h⟩
        | ok rosters =>
          simp only [hrs] at heq
          cases hus : (net (cur.getD "")).users with
          | httpErr st3 stx3 =>
            simp only [hus, Option.some.injEq, Prod.mk.injEq] at heq
            obtain ⟨rfl, -, -⟩ := heq
            exact ⟨[], by simpa using List.perm_insertionSort seasonBefore h⟩
          | threw msg3 =>
            simp only [hus, Option.some.injEq, Prod.mk.injEq] at heq
            obtain ⟨rfl, -, -⟩ := heq
            exact ⟨[], by simpa using List.perm_insertionSort seasonBefore h⟩
          | ok users =>
            simp only [hus] at heq
            by_cases hprev : (idFalsy league.previous_league_id) = true
            · rw [if_pos hprev] at heq
              simp only [Option.some.injEq, Prod.mk.injEq] at heq
              obtain ⟨rfl, -, -⟩ := heq
              have hp := List.perm_insertionSort seasonBefore
                (h ++ [mkHistoryEntry league rosters users])
              exact ⟨[mkHistoryEntry league rosters users], by simpa using hp⟩
            · rw [if_neg hprev] at heq
              cases hrec : fetchLeagueHistory fuel league.previous_league_id net
                  (h ++ [mkHistoryEntry league rosters users]) with
              | none =>
                simp only [hrec] at heq
                exact Option.noConfusion heq
              | some trip =>
                obtain ⟨out', n', k'⟩ := trip
                simp only [hrec, Option.some.injEq, Prod.mk.injEq] at heq
                obtain ⟨rfl, -, -⟩ := heq
                obtain ⟨extra, hperm⟩ := ih league.previous_league_id net
                  (h ++ [mkHistoryEntry league rosters users]) out' n' k' hrec
                exact ⟨mkHistoryEntry league rosters users :: extra,
                  by rwa [List.append_assoc] at hperm⟩

/-! ### Claim C6 -/

/-- C6: starting the champion-history walk at the sentinel `"0"`, at a
missing (`null`) id, or at the empty id returns the empty list at once:
for any fetch capability and any positive fuel the result is the empty
history with zero fetch invocations. -/
theorem c6_sentinel_start_returns_empty :
    ∀ (fuel : Nat) (net : String → SeasonFetch),
      fetchLeagueHistory (fuel + 1) (some "0") net [] = some ([], 0, ExitKind.sentinel) ∧
      fetchLeagueHistory (fuel + 1) none net [] = some ([], 0, ExitKind.sentinel) ∧
      fetchLeagueHistory (fuel + 1) (some "") net [] = some ([], 0, ExitKind.sentinel) := by
  intro fuel net
  exact ⟨flh_sentinel fuel _ net [] rfl, flh_sentinel fuel _ net [] rfl,
    flh_sentinel fuel _ net [] rfl⟩

/-! ### Claim C2 (corrected) -/

/-- C2 counterexample: a traversal of the two-hop chain `"A"` (season 1) →
`"B"` (season 2) ending at the sentinel `"0"` returns the accumulator in
discovery order `[season 1, season 2]`, which is not sorted by season
descending — the sentinel exit skips the sort. -/
theorem c2_counterexample_sentinel_exit_unsorted :
    fetchLeagueHistory 3 (some "A") netChainToSentinel [] =
      some ([⟨1, "A", "League", "Unknown", 10⟩, ⟨2, "B", "League", "Unknown", 10⟩], 6,
        ExitKind.sentinel) ∧
    ¬ ([(⟨1, "A", "League", "Unknown", 10⟩ : ChampionHistoryEntry),
        ⟨2, "B", "League", "Unknown", 10⟩].Pairwise (fun a b => b.season ≤ a.season)) := by
  exact ⟨by rfl, by decide⟩

/-- C2 (amended): the returned champion history is sorted by season
descending whenever the walk exits by exhausting `previous_league_id` or
through the error (`catch`) path; the sentinel and not-found exits return
the accumulator as-is (see the counterexample). -/
theorem c2_sorted_on_exhausted_or_errored_exit :
    ∀ (fuel : Nat) (cur : Option String) (net : String → SeasonFetch)
      (h out : List ChampionHistoryEntry) (n : Nat) (k : ExitKind),
      fetchLeagueHistory fuel cur net h = some (out, n, k) →
      k = ExitKind.exhausted ∨ k = ExitKind.errored →
      out.Pairwise (fun a b => b.season ≤ a.season) :=
  flh_sorted_of_exit

/-- Witness for C2 (amended): a one-hop chain exits `exhausted` and its
result is season-descending. -/
theorem c2_sorted_witness :
    fetchLeagueHistory 1 (some "X") netSingleSeason [] =
      some ([⟨5, "X", "League", "Unknown", 10⟩], 3, ExitKind.exhausted) ∧
    ([(⟨5, "X", "League", "Unknown", 10⟩ : ChampionHistoryEntry)].Pairwise
      (fun a b => b.season ≤ a.season)) := by
  refine ⟨by rfl, ?_⟩
  exact c2_sorted_on_exhausted_or_errored_exit 1 (some "X") netSingleSeason []
    [⟨5, "X", "League", "Unknown", 10⟩] 3 ExitKind.exhausted (by rfl) (Or.inl rfl)

/-! ### Claim C7 -/

/-- C7: a 404 on the league fetch of a hop stops the walk and returns, as a
success, exactly the entries collected for the hops before the failure:
the not-found exit returns the accumulator unchanged with one more fetch
call; a fully successful hop passes the accumulator extended by exactly its
own entry to the rest of the walk; and on the concrete three-hop chain with
a 404 on hop 2, the walk returns exactly the one entry of hop 1. -/
theorem c7_not_found_returns_partial_history :
    (∀ (fuel : Nat) (id : String) (net : String → SeasonFetch)
        (h : List ChampionHistoryEntry) (stx : String),
        ¬ (idFalsy (some id) || some id == some "0") = true →
        (net id).league = FetchOutcome.httpErr 404 stx →
        fetchLeagueHistory (fuel + 1) (some id) net h = some (h, 1, ExitKind.notFound))
    ∧ (∀ (fuel : Nat) (id : String) (net : String → SeasonFetch)
        (h : List ChampionHistoryEntry) (league : LeagueRecord)
        (rosters : List RosterRecord) (users : List UserRecord),
        ¬ (idFalsy (some id) || some id == some "0") = true →
        (net id).league = FetchOutcome.ok league →
        (net id).rosters = FetchOutcome.ok rosters →
        (net id).users = FetchOutcome.ok users →
        idFalsy league.previous_league_id = false →
        fetchLeagueHistory (fuel + 1) (some id) net h =
          Option.map (fun r => (r.1, r.2.1 + 3, r.2.2))
            (fetchLeagueHistory fuel league.previous_league_id net
              (h ++ [mkHistoryEntry league rosters users])))
    ∧ fetchLeagueHistory 10 (some "L1") netNotFoundHop2 [] =
        some ([⟨3, "L1", "League", "Unknown", 10⟩], 4, ExitKind.notFound) := by
  refine ⟨flh_notFound, flh_success, by rfl⟩

/-- Witness for C7: the not-found step applied at a concrete hop. -/
theorem c7_witness :
    fetchLeagueHistory 1 (some "L2") netNotFoundHop2
      [⟨3, "L1", "League", "Unknown", 10⟩] =
      some ([⟨3, "L1", "League", "Unknown", 10⟩], 1, ExitKind.notFound) :=
  c7_not_found_returns_partial_history.1 0 "L2" netNotFoundHop2
    [⟨3, "L1", "League", "Unknown", 10⟩] "Not Found" (by decide) (by rfl)

/-! ### Claim C8 (corrected) -/

theorem aggregateStandings_perm (seasonParam : String) (league : LeagueRecord)
    (rosters : List RosterRecord) (users : List UserRecord) :
    (aggregateStandings seasonParam league rosters users).standings.Perm
      (rosters.map (mkStandingsEntry users)) := by
  unfold aggregateStandings
  by_cases hr : rosters.isEmpty
  · have hnil : rosters = [] := by
      cases rosters
      · rfl
      · exact absurd hr (by simp)
    subst hnil
    simp
  · rw [if_neg hr]
    exact List.perm_insertionSort _ _

/-- C8 counterexample: `fetchLeagueHistory` pushes into (and sorts) the
very array it is passed and returns that same object, so a caller-supplied
accumulator is mutated: after a one-hop walk started from the accumulator
`[e]` the array contains two entries, not the original one; and a second
call "on the same inputs" (the same array object, now holding the first
call's result) returns yet another list, so the two runs' outputs differ. -/
theorem c8_counterexample_accumulator_mutated :
    fetchLeagueHistory 1 (some "X") netSingleSeason [⟨9, "P", "League", "C", 10⟩] =
      some ([⟨9, "P", "League", "C", 10⟩, ⟨5, "X", "League", "Unknown", 10⟩], 3,
        ExitKind.exhausted) ∧
    ([(⟨9, "P", "League", "C", 10⟩ : ChampionHistoryEntry),
        ⟨5, "X", "League", "Unknown", 10⟩] ≠ [⟨9, "P", "League", "C", 10⟩]) ∧
    fetchLeagueHistory 1 (some "X") netSingleSeason
        [⟨9, "P", "League", "C", 10⟩, ⟨5, "X", "League", "Unknown", 10⟩] ≠
      fetchLeagueHistory 1 (some "X") netSingleSeason [⟨9, "P", "League", "C", 10⟩] := by
  exact ⟨by rfl, by decide, by decide⟩

/-- C8 (amended): in the pure model both procedures are deterministic
functions of their inputs, and `aggregateStandings` builds a fresh entry
list (a permutation of the per-roster entries) without touching its
arguments; but the walk does mutate a caller-passed accumulator — it only
ever appends to and reorders it: the final contents of the accumulator
(= the returned list) are a permutation of the caller's entries followed by
the entries collected during the walk. -/
theorem c8_no_input_mutation_amended :
    (∀ (fuel : Nat) (cur : Option String) (net : String → SeasonFetch)
        (h out : List ChampionHistoryEntry) (n : Nat) (k : ExitKind),
        fetchLeagueHistory fuel cur net h = some (out, n, k) →
        ∃ extra, out.Perm (h ++ extra))
    ∧ (∀ (seasonParam : String) (league : LeagueRecord) (rosters : List RosterRecord)
        (users : List UserRecord),
        (aggregateStandings seasonParam league rosters users).standings.Perm
          (rosters.map (mkStandingsEntry users))) :=
  ⟨flh_perm, aggregateStandings_perm⟩

/-- Witness for C8 (amended): the preservation fact at a concrete one-hop
walk from a non-empty accumulator. -/
theorem c8_witness :
    ∃ extra, ([(⟨9, "P", "League", "C", 10⟩ : ChampionHistoryEntry),
        ⟨5, "X", "League", "Unknown", 10⟩]).Perm
      ([⟨9, "P", "League", "C", 10⟩] ++ extra) :=
  c8_no_input_mutation_amended.1 1 (some "X") netSingleSeason
    [⟨9, "P", "League", "C", 10⟩]
    [⟨9, "P", "League", "C", 10⟩, ⟨5, "X", "League", "Unknown", 10⟩] 3
    ExitKind.exhausted (by rfl)

/-! ### Claim C9 -/

/-- C9: a request without a truthy `leagueId` query parameter is answered
with HTTP 400 and body `{error: "League ID is required."}` immediately,
with zero upstream fetch invocations, for every network model. -/
theorem c9_missing_league_id_immediate_400 :
    ∀ (α : Type) (fuel : Nat) (req : ApiRequest) (net : NetworkModel α),
      idFalsy req.leagueId = true →
      handler fuel req net =
        some (⟨400, ApiBody.jsonError "League ID is required."⟩, 0) := by
  intro α fuel req net hfalsy
  rw [handler, if_pos hfalsy]

/-- Witness for C9: a concrete request with no `leagueId` gets the 400
response with zero fetches. -/
theorem c9_witness :
    handler 1 ⟨none, some "league", none, none⟩
      (NetworkModel.mk (fun _ => FetchOutcome.threw "offline") netSingleSeason :
        NetworkModel Unit) =
      some (⟨400, ApiBody.jsonError "League ID is required."⟩, 0) :=
  c9_missing_league_id_immediate_400 Unit 1 ⟨none, some "league", none, none⟩
    (NetworkModel.mk (fun _ => FetchOutcome.threw "offline") netSingleSeason) rfl

/-- Witness for C1: the zero-points case evaluated. -/
theorem c1_witness : totalPoints 0 0 = 0 := c1_total_points_textual_join.2.2.1

/-- Witness for C3: on a concrete two-roster season the champion scan picks
the roster heading the sorted standings. -/
theorem c3_witness :
    ∃ r : RosterRecord,
      champRoster [⟨1, "a", none⟩, ⟨2, "b", some ⟨some 3, none, none, none, none⟩⟩] = some r ∧
      (aggregateStandings "2024" ⟨"L", "Name", 2024, 2, none⟩
          [⟨1, "a", none⟩, ⟨2, "b", some ⟨some 3, none, none, none, none⟩⟩]
          [⟨"u1", some "Dana", "dana"⟩]).standings.head? =
        some (mkStandingsEntry [⟨"u1", some "Dana", "dana"⟩] r) ∧
      championOwner [⟨1, "a", none⟩, ⟨2, "b", some ⟨some 3, none, none, none, none⟩⟩]
          [⟨"u1", some "Dana", "dana"⟩] =
        ownerLabel [⟨"u1", some "Dana", "dana"⟩] r.owner_id :=
  c3_champion_is_standings_head "2024" ⟨"L", "Name", 2024, 2, none⟩
    [⟨1, "a", none⟩, ⟨2, "b", some ⟨some 3, none, none, none, none⟩⟩]
    [⟨"u1", some "Dana", "dana"⟩] (by decide)

end LeagueData
